import Mathlib

/-! Verification of the resource-pool engine: a shallow embedding of the two slot
allocators (the linear-scan/CAS `FastResourcePool` of fast-pool.ts and the
LIFO-stack/spinlock `BasePool` of src/internal/base-pool.ts) together with the
lifecycle layers built on them (`StaticObjectPool`, the dynamic `ObjectPool`,
`EnginePool`, `GenericObjectPool`), and proofs about their stated properties.

Concurrency is embedded sequentially: each atomic operation of the source is a
pure state transformer, and every interleaving-sensitive loop (the async
acquire loops) is embedded as its loop body, a function of the pool state at
the wake point plus the wait outcome.
-/

/-- Slot state encoding of fast-pool.ts: STATE_FREE = 0. -/
def STATE_FREE : Nat := 0

/-- Slot state encoding of fast-pool.ts: STATE_BUSY = 1. -/
def STATE_BUSY : Nat := 1

/-- Slot state encoding of fast-pool.ts: STATE_LOCKED = 2. -/
def STATE_LOCKED : Nat := 2

/-- Error kinds thrown by the pool implementations.  `invalidHandle` is the
out-of-range check of `release`/`lockSlot`/`unlockSlot`, `invalidRelease` the
failed Busy-to-Free CAS of `FastResourcePool.release`, `timeoutExpired` the
acquire-timeout error, `foreignResource` the error of
`GenericObjectPool.release` for a resource not belonging to the pool. -/
inductive PoolError where
  | invalidHandle
  | invalidRelease
  | timeoutExpired
  | foreignResource
deriving DecidableEq, Repr

/-- State of the linear-scan/CAS allocator of fast-pool.ts.  The Int32Array
header cells MAGIC/TAIL never change and are omitted; `slots` is the slice of
per-slot integer state cells starting at OFFSET_SLOTS_START (the cells hold
raw integers, as in the source, not an enum). -/
structure FastResourcePool where
  capacity : Nat
  head : Nat
  notify : Nat
  slots : List Nat
deriving DecidableEq, Repr

/-- The constructor of fast-pool.ts (pure-JS path): all slots initialized to
STATE_FREE, HEAD and NOTIFY zero. -/
def FastResourcePool.init (cap : Nat) : FastResourcePool :=
  { capacity := cap, head := 0, notify := 0, slots := List.replicate cap STATE_FREE }

/-- `FastResourcePool.acquire`: linear scan from the HEAD hint; the first slot
whose optimistic load reads STATE_FREE is claimed by the Free-to-Busy CAS
(sequentially, a load of FREE means the CAS succeeds), HEAD advances to
index + 1 mod capacity.  Returns `none` for the source's -1 (pool exhausted). -/
def FastResourcePool.acquire (p : FastResourcePool) : Option Nat × FastResourcePool :=
  match (List.range p.capacity).find?
      (fun i => p.slots.getD ((p.head + i) % p.capacity) STATE_BUSY == STATE_FREE) with
  | some i =>
    let index := (p.head + i) % p.capacity
    (some index,
      { p with slots := p.slots.set index STATE_BUSY, head := (index + 1) % p.capacity })
  | none => (none, p)

/-- `FastResourcePool.release`: bounds check throws `invalidHandle`; then a
Busy-to-Free CAS, whose failure throws `invalidRelease` (the `Invalid release
for slot` error) leaving the slot cells untouched; on success the NOTIFY
counter is incremented. -/
def FastResourcePool.release (p : FastResourcePool) (handle : Nat) : Except PoolError FastResourcePool :=
  if p.capacity ≤ handle then .error .invalidHandle
  else if p.slots.getD handle STATE_FREE == STATE_BUSY then
    .ok { p with slots := p.slots.set handle STATE_FREE, notify := p.notify + 1 }
  else .error .invalidRelease

/-- `FastResourcePool.lockSlot`: bounds check, then a Free-to-Locked CAS; the
returned Bool is whether the CAS found the slot Free. -/
def FastResourcePool.lockSlot (p : FastResourcePool) (index : Nat) : Except PoolError (Bool × FastResourcePool) :=
  if p.capacity ≤ index then .error .invalidHandle
  else if p.slots.getD index STATE_BUSY == STATE_FREE then
    .ok (true, { p with slots := p.slots.set index STATE_LOCKED })
  else .ok (false, p)

/-- `FastResourcePool.unlockSlot`: bounds check, then an UNCONDITIONAL
`Atomics.store` of STATE_FREE into the slot (no Locked-to-Free CAS), then
NOTIFY increment. -/
def FastResourcePool.unlockSlot (p : FastResourcePool) (index : Nat) : Except PoolError FastResourcePool :=
  if p.capacity ≤ index then .error .invalidHandle
  else .ok { p with slots := p.slots.set index STATE_FREE, notify := p.notify + 1 }

/-- `FastResourcePool.availableCount`: the number of slot cells holding
STATE_FREE. -/
def FastResourcePool.availableCount (p : FastResourcePool) : Nat :=
  p.slots.count STATE_FREE

/-- State of the LIFO-stack/spinlock allocator of src/internal/base-pool.ts.
The spinlock word is held only inside each operation and is always Unlocked
between operations, so it is not part of the state; `cells` is the stack
region of the Int32Array (zero-initialized by SharedArrayBuffer), `count` the
COUNT header cell, `notify` the NOTIFY header cell. -/
structure BasePool where
  capacity : Nat
  count : Nat
  notify : Nat
  cells : List Nat
deriving DecidableEq, Repr

/-- The `BasePool` constructor for a fresh capacity: COUNT starts at 0 (the
stack is NOT filled; higher layers seed it by calling `release`). -/
def BasePool.init (cap : Nat) : BasePool :=
  { capacity := cap, count := 0, notify := 0, cells := List.replicate cap 0 }

/-- `BasePool.acquire`: under the spinlock, if COUNT > 0, decrement it and pop
the stack cell at the new COUNT; otherwise return -1 (`none` here). -/
def BasePool.acquire (b : BasePool) : Option Nat × BasePool :=
  if 0 < b.count then
    let newCount := b.count - 1
    (some (b.cells.getD newCount 0), { b with count := newCount })
  else (none, b)

/-- `BasePool.release`: under the spinlock, store the handle into the stack
cell at COUNT and increment COUNT, then bump NOTIFY.  There is NO validation
of the handle: any integer is pushed.  (When COUNT already equals the
capacity the underlying `Atomics.store` index is out of range and the source
throws a RangeError with no state change; that guard is the `else` branch, a
situation no verified flow reaches.) -/
def BasePool.release (b : BasePool) (handle : Nat) : BasePool :=
  if b.count < b.capacity then
    { b with cells := b.cells.set b.count handle, count := b.count + 1, notify := b.notify + 1 }
  else b

/-- `BasePool.availableCount` reads the COUNT header cell. -/
def BasePool.availableCount (b : BasePool) : Nat :=
  b.count

/-- Repeated `BasePool.acquire`, collecting each call's result. -/
def BasePool.acquireMany (b : BasePool) : Nat → List (Option Nat) × BasePool
  | 0 => ([], b)
  | n + 1 =>
    let r := b.acquire
    let rest := r.2.acquireMany n
    (r.1 :: rest.1, rest.2)

/-- The `EnginePool` constructor: a fresh `BasePool(size)` (zero available),
then `release(i)` for every `i` in `0..size-1` to seed the free stack. -/
def EnginePool.construct (size : Nat) : BasePool :=
  (List.range size).foldl (fun b i => b.release i) (BasePool.init size)

/-- Outcome of one `Atomics.waitAsync` in the async acquire loops:
`woken` (the promise resolved with ok), `timedOut`, or `valueChanged` (the
not-equal fast return, `result.async` false). -/
inductive WaitOutcome where
  | woken
  | timedOut
  | valueChanged
deriving DecidableEq, Repr

/-- Result of one iteration of an async acquire loop: a handle was obtained,
the timeout error was thrown, or the loop goes back to waiting. -/
inductive AsyncIterResult (σ : Type) where
  | success (s : σ) (handle : Nat)
  | timeoutThrown
  | continueWaiting (s : σ)
deriving DecidableEq, Repr

/-- One iteration of the slow-path loop of `FastResourcePool.acquireAsync`
(fast-pool.ts lines 172-202), as a function of the pool state at the wake
point: (1) if the deadline had already passed at the top of the loop, throw
the timeout error; (2) wait, and if the wait reports `timed-out`, throw the
timeout error WITHOUT any further acquire attempt; (3) otherwise retry
`acquire`, returning its handle or looping. -/
def FastResourcePool.acquireAsyncStep (p : FastResourcePool) (expiredAtLoopTop : Bool)
    (wait : WaitOutcome) : AsyncIterResult FastResourcePool :=
  if expiredAtLoopTop then .timeoutThrown
  else
    match wait with
    | .timedOut => .timeoutThrown
    | _ =>
      match p.acquire with
      | (some h, p1) => .success p1 h
      | (none, p1) => .continueWaiting p1

/-- One iteration of the loop of `BasePool.acquireAsync` (base-pool.ts lines
114-143), as a function of the pool state at the wake point, for a finite
nonzero timeout: the non-blocking `acquire` is retried FIRST; only if it
fails and the deadline has passed is the timeout error thrown; otherwise the
loop waits again. -/
def BasePool.acquireAsyncStep (b : BasePool) (expired : Bool) : AsyncIterResult BasePool :=
  match b.acquire with
  | (some h, b1) => .success b1 h
  | (none, b1) =>
    if expired then .timeoutThrown
    else .continueWaiting b1

/-- `FastResourcePool.use` with the acquisition restricted to the case the
claim conditions on: the acquire succeeds.  The try/finally of the source is
embedded by computing `fn`'s outcome (normal return `.ok` or thrown error
`.error`) and then releasing the handle on either outcome; if the acquire
fails (`none`, the caller would block) the model returns `none`, as it does
in the impossible case of the final release failing. -/
def FastResourcePool.use {E R : Type} (p : FastResourcePool) (fn : Nat → Except E R) :
    Option (Except E R × FastResourcePool) :=
  match p.acquire with
  | (none, _) => none
  | (some h, p1) =>
    match p1.release h with
    | .ok p2 => some (fn h, p2)
    | .error _ => none

/-- `EnginePool.use` (engine-object-pool.ts lines 67-91) under a successful
optimistic acquire: invoke `fn` and release the index in the finally block on
both exit paths. -/
def EnginePool.use {E R : Type} (b : BasePool) (fn : Nat → Except E R) :
    Option (Except E R × BasePool) :=
  match b.acquire with
  | (none, _) => none
  | (some idx, b1) => some (fn idx, b1.release idx)

/-- State of the dynamic `ObjectPool` of dynamic-object-pool.ts.  Resources
carry no data relevant to the claims, so the resources array tracks only
presence (`some ()` vs `null`).  `availableIndexes` is the JS array used as a
stack via push/pop at its end; it is embedded as a Lean list with the stack
top at the HEAD.  `min`, `max`, `idleTimeout`, `lastActivity`, `opCount` are
the fields of the same names. -/
structure ObjectPool where
  pool : BasePool
  resources : List (Option Unit)
  availableIndexes : List Nat
  pendingCreates : Nat
  min : Nat
  max : Nat
  idleTimeout : Nat
  lastActivity : Nat
  opCount : Nat
deriving DecidableEq, Repr

/-- `activeResourceCount` as computed by `ObjectPool.getMetrics` and
`checkScaleDown`: `this.max - this.availableIndexes.length`. -/
def ObjectPool.activeResourceCount (st : ObjectPool) : Nat :=
  st.max - st.availableIndexes.length

/-- `ObjectPool.acquire`: bump `opCount` (every 256th op refreshes
`lastActivity` to `now`), then delegate to the inner `BasePool.acquire`. -/
def ObjectPool.acquire (st : ObjectPool) (now : Nat) : Option Nat × ObjectPool :=
  let oc := st.opCount + 1
  let la := if oc % 256 = 0 then now else st.lastActivity
  match st.pool.acquire with
  | (r, p1) => (r, { st with pool := p1, opCount := oc, lastActivity := la })

/-- `ObjectPool.release(resource)`: read the slot index from the resource's
SLOT_SYMBOL tag (the `tagIdx` argument here) and call the inner
`BasePool.release` with it — with NO check that the resource belongs to this
pool; a resource tagged by any pool is accepted. -/
def ObjectPool.release (st : ObjectPool) (tagIdx : Nat) (now : Nat) : ObjectPool :=
  let oc := st.opCount + 1
  let la := if oc % 256 = 0 then now else st.lastActivity
  { st with pool := st.pool.release tagIdx, opCount := oc, lastActivity := la }

/-- `ObjectPool.triggerScaleUp` as one step, parameterized by whether the
factory call succeeds: `pendingCreates` is incremented and decremented again
inside the same step; a slot index is popped from `availableIndexes` (if it
is empty the step is a no-op); on factory success the resource is installed
and the slot released into the inner pool; on factory failure the index is
pushed back (so the state is exactly restored). -/
def ObjectPool.triggerScaleUp (st : ObjectPool) (factoryOk : Bool) : ObjectPool :=
  match st.availableIndexes with
  | [] => st
  | slotIdx :: rest =>
    if factoryOk then
      { st with availableIndexes := rest,
                resources := st.resources.set slotIdx (some ()),
                pool := st.pool.release slotIdx }
    else st

/-- `ObjectPool.destroyResourceInSlot`: (after the best-effort destroyer) null
the resource entry and push the slot index onto `availableIndexes`. -/
def ObjectPool.destroyResourceInSlot (st : ObjectPool) (idx : Nat) : ObjectPool :=
  { st with resources := st.resources.set idx none,
            availableIndexes := idx :: st.availableIndexes }

/-- `ObjectPool.checkScaleDown` at time `now` (the `isDestroyed` flag is false
for a live pool): return unless `now - lastActivity ≥ idleTimeout`; compute
`activeCount = max - availableIndexes.length` and return unless it exceeds
`min`; then try to grab ONE available slot via the inner `acquire` and, if
that succeeds, destroy the resource in it. -/
def ObjectPool.checkScaleDown (st : ObjectPool) (now : Nat) : ObjectPool :=
  if now - st.lastActivity < st.idleTimeout then st
  else
    let activeCount := st.max - st.availableIndexes.length
    if activeCount ≤ st.min then st
    else
      match st.pool.acquire with
      | (none, p1) => { st with pool := p1 }
      | (some idx, p1) => ObjectPool.destroyResourceInSlot { st with pool := p1 } idx

/-- `ObjectPool.replaceResourceInSlot` (dynamic-object-pool.ts lines 200-220),
parameterized by the factory outcome: on success the new resource is tagged
and installed in the same slot; on failure the error is re-thrown and —
per the source's own comment — `the slot will remain acquired but empty`:
no `pool.release` happens on this path. -/
def ObjectPool.replaceResourceInSlot {E : Type} (st : ObjectPool) (idx : Nat)
    (factoryResult : Except E Unit) : ObjectPool × Except E Unit :=
  match factoryResult with
  | .ok r => ({ st with resources := st.resources.set idx (some r) }, .ok ())
  | .error e => (st, .error e)

/-- The validation-failure branch of `StaticObjectPool.acquireAsync`
(dynamic-object-pool.ts, StaticObjectPool lines 359-373), parameterized by the
factory outcome: on success the new resource is tagged with the slot index,
installed in the same slot (which stays acquired) and returned; on ANY failure
of the destroy/create sequence the slot is released back to the inner pool and
the error re-thrown. -/
def StaticObjectPool.replaceInvalid {T E : Type} (pool : BasePool) (resources : List (Option T))
    (idx : Nat) (factoryResult : Except E T) :
    (BasePool × List (Option T)) × Except E T :=
  match factoryResult with
  | .ok newRes => ((pool, resources.set idx (some newRes)), .ok newRes)
  | .error e => ((pool.release idx, resources), .error e)

/-- State of the `GenericObjectPool` wrapper (its JS half): the resources
array and the `resourceToIdx` Map.  The native index pool behind it is not
part of this state; `GenericObjectPool.release` below returns the index it
forwards to the native pool's release, so rejection before any forwarding
means no slot state is touched.  The JS `Map` is embedded as an association
list looked up front-to-back, with `Map.set` prepending (a later `set` of the
same key shadows the earlier entry, giving `Map.get`'s last-set-wins
semantics). -/
structure GenericObjectPool (T : Type) where
  resources : List T
  resourceToIdx : List (T × Nat)
deriving DecidableEq, Repr

/-- The `GenericObjectPool` constructor: store the resources and build the
reverse map by `resources.forEach((r, i) => resourceToIdx.set(r, i))`. -/
def GenericObjectPool.construct {T : Type} (rs : List T) : GenericObjectPool T :=
  { resources := rs
  , resourceToIdx := rs.enum.foldl (fun m p => (p.2, p.1) :: m) [] }

/-- `GenericObjectPool.release(resource)`: O(1) lookup in `resourceToIdx`; if
the resource is unknown (`undefined`), throw the `Resource not belonging to
pool` error before touching the index pool; otherwise forward the index to
the native pool's release (the returned value here). -/
def GenericObjectPool.release {T : Type} [DecidableEq T] (g : GenericObjectPool T) (r : T) :
    Except PoolError Nat :=
  match g.resourceToIdx.find? (fun q => q.1 == r) with
  | none => .error .foreignResource
  | some q => .ok q.2

/-- `createPoolInternal` (engine-object-pool.ts lines 308-351) restricted to
the data the claims depend on: a fresh `BasePool(max)`; the
`min(initialResources.length, max)` provided resources are installed and
their slots released; then, ONLY for a synchronous factory, resources are
created to fill up to `min`; all remaining slot indices go to
`destroyedIndices` (the pool's `availableIndexes`), in increasing push order,
so the stack top — the head of the embedded list — is `max - 1`. -/
def createPoolInternal (mn mx numInitial : Nat) (isAsync : Bool) (idleT now0 : Nat) : ObjectPool :=
  let placed := Nat.min numInitial mx
  let afterPlace := (List.range placed).foldl (fun b i => b.release i) (BasePool.init mx)
  let nextSlot := if isAsync = false ∧ placed < mn then mn else placed
  let basePool := (List.range' placed (nextSlot - placed)).foldl (fun b i => b.release i) afterPlace
  { pool := basePool
  , resources := (List.range mx).map (fun i => if i < nextSlot then some () else none)
  , availableIndexes := (List.range' nextSlot (mx - nextSlot)).reverse
  , pendingCreates := 0
  , min := mn
  , max := mx
  , idleTimeout := idleT
  , lastActivity := now0
  , opCount := 0 }

/-- One quiescent-point-to-quiescent-point operation of the dynamic
`ObjectPool`: an acquire, a release, a completed `triggerScaleUp` (factory
success or failure), or a `checkScaleDown` tick. -/
inductive ObjectPoolStep : ObjectPool → ObjectPool → Prop
  | acquire (st : ObjectPool) (now : Nat) : ObjectPoolStep st (st.acquire now).2
  | release (st : ObjectPool) (tagIdx now : Nat) : ObjectPoolStep st (st.release tagIdx now)
  | scaleUp (st : ObjectPool) (factoryOk : Bool) : ObjectPoolStep st (st.triggerScaleUp factoryOk)
  | scaleDown (st : ObjectPool) (now : Nat) : ObjectPoolStep st (st.checkScaleDown now)

/-- States of the dynamic `ObjectPool` reachable from a start state by the
operations above. -/
inductive ObjectPoolReachable (st0 : ObjectPool) : ObjectPool → Prop
  | refl : ObjectPoolReachable st0 st0
  | step {a b : ObjectPool} : ObjectPoolReachable st0 a → ObjectPoolStep a b →
      ObjectPoolReachable st0 b

/-- States of the linear-scan allocator reachable from a fresh
`FastResourcePool(cap)` by acquire/release/lockSlot/unlockSlot (a failed
operation throws without changing state, so only successful outcomes produce
new states). -/
inductive FastReachable (cap : Nat) : FastResourcePool → Prop
  | init : FastReachable cap (FastResourcePool.init cap)
  | acquire {p : FastResourcePool} : FastReachable cap p → FastReachable cap p.acquire.2
  | release {p p' : FastResourcePool} {h : Nat} : FastReachable cap p →
      p.release h = .ok p' → FastReachable cap p'
  | lockSlot {p p' : FastResourcePool} {i : Nat} {ok : Bool} : FastReachable cap p →
      p.lockSlot i = .ok (ok, p') → FastReachable cap p'
  | unlockSlot {p p' : FastResourcePool} {i : Nat} : FastReachable cap p →
      p.unlockSlot i = .ok p' → FastReachable cap p'

/-- Concrete dynamic-pool state for the replacement-failure scenario: a
min=max=1 pool whose single slot 0 is currently held by the caller running
the validation-failure replacement (the inner free stack is empty). -/
def phantomSlotState : ObjectPool :=
  { pool := { capacity := 1, count := 0, notify := 1, cells := [0] }
  , resources := [some ()]
  , availableIndexes := []
  , pendingCreates := 0
  , min := 1, max := 1, idleTimeout := 1000, lastActivity := 0, opCount := 0 }

/-- Concrete dynamic-pool state with both slots of a min=max=2 pool held by
callers (free stack empty). -/
def bothBusyState : ObjectPool :=
  { pool := { capacity := 2, count := 0, notify := 2, cells := [0, 1] }
  , resources := [some (), some ()]
  , availableIndexes := []
  , pendingCreates := 0
  , min := 2, max := 2, idleTimeout := 0, lastActivity := 0, opCount := 0 }

/-- Concrete dynamic-pool state for the scale-down scenario: min=1, max=5,
all five resources materialized (`availableIndexes` empty), three of them
available on the free stack (slots 0, 1, 2) and two held by callers,
idleTimeout 10ms, last activity at time 0. -/
def idlePoolState : ObjectPool :=
  { pool := { capacity := 5, count := 3, notify := 0, cells := [0, 1, 2, 0, 0] }
  , resources := [some (), some (), some (), some (), some ()]
  , availableIndexes := []
  , pendingCreates := 0
  , min := 1, max := 5, idleTimeout := 10, lastActivity := 0, opCount := 0 }

/-! ### Helper lemmas -/

/-- Writing back the value a cell already holds leaves the list unchanged. -/
theorem set_getD_self (xs : List Nat) (i v : Nat) (hi : i < xs.length)
    (hv : xs.getD i 0 = v) : xs.set i v = xs := by
  induction xs generalizing i with
  | nil => simp at hi
  | cons x t ih =>
    cases i with
    | zero => simp_all
    | succ j =>
      simp only [List.set_cons_succ, List.cons.injEq, true_and]
      exact ih j (by simpa using hi) (by simpa using hv)

/-- A list whose entries all lie in the slot-state set contributes exactly its
length to the three state counts. -/
theorem count_three_states (xs : List Nat)
    (h : ∀ v ∈ xs, v = STATE_FREE ∨ v = STATE_BUSY ∨ v = STATE_LOCKED) :
    xs.count STATE_FREE + xs.count STATE_BUSY + xs.count STATE_LOCKED = xs.length := by
  induction xs with
  | nil => simp
  | cons x t ih =>
    have hx := h x (by simp)
    have ht := ih (fun v hv => h v (by simp [hv]))
    rcases hx with hx | hx | hx <;> subst hx <;>
      simp only [STATE_FREE, STATE_BUSY, STATE_LOCKED] at ht ⊢ <;>
      simp [List.count_cons] <;> omega

/-- Facts extracted from a successful `FastResourcePool.acquire`. -/
theorem FastResourcePool.acquire_some_facts {p p1 : FastResourcePool} {h : Nat}
    (hacq : p.acquire = (some h, p1)) :
    h < p.slots.length ∧ p.slots.getD h STATE_BUSY = STATE_FREE ∧
      p1.slots = p.slots.set h STATE_BUSY ∧ p1.capacity = p.capacity ∧
      p1.notify = p.notify := by
  unfold FastResourcePool.acquire at hacq
  cases hfind : (List.range p.capacity).find?
      (fun i => p.slots.getD ((p.head + i) % p.capacity) STATE_BUSY == STATE_FREE) with
  | none => rw [hfind] at hacq; simp at hacq
  | some i =>
    rw [hfind] at hacq
    simp only [Prod.mk.injEq, Option.some.injEq] at hacq
    obtain ⟨rfl, rfl⟩ := hacq
    have hpred := List.find?_some hfind
    have hfree : p.slots.getD ((p.head + i) % p.capacity) STATE_BUSY = STATE_FREE :=
      by simpa using hpred
    have hlt : (p.head + i) % p.capacity < p.slots.length := by
      by_contra hge
      rw [List.getD_eq_default _ _ (Nat.le_of_not_lt hge)] at hfree
      simp [STATE_BUSY, STATE_FREE] at hfree
    exact ⟨hlt, hfree, rfl, rfl, rfl⟩

/-- A failed `FastResourcePool.acquire` returns the state unchanged. -/
theorem FastResourcePool.acquire_none_id {p p1 : FastResourcePool}
    (hacq : p.acquire = (none, p1)) : p1 = p := by
  unfold FastResourcePool.acquire at hacq
  cases hfind : (List.range p.capacity).find?
      (fun i => p.slots.getD ((p.head + i) % p.capacity) STATE_BUSY == STATE_FREE) with
  | none => rw [hfind] at hacq; simpa using hacq.symm
  | some i => rw [hfind] at hacq; simp at hacq

/-! ### Claim C2 -/

/-- Claim C2 (amended): in the linear-scan allocator (`FastResourcePool`),
`release(h)` with `h` out of range throws the distinct `invalidHandle` error,
and `release(h)` on a slot not currently Busy is detected by the failed
Busy-to-Free CAS and throws the distinct `invalidRelease` error; in both
cases no slot cell is written (the error constructors carry no successor
state: the failed CAS stores nothing and the throw precedes the NOTIFY
update).  The stack allocator `BasePool.release` performs no such check
(see the counterexample). -/
theorem fastPool_release_invalid_throws (p : FastResourcePool) (h : Nat) :
    (p.capacity ≤ h → p.release h = .error .invalidHandle) ∧
    (h < p.capacity → p.slots.getD h STATE_FREE ≠ STATE_BUSY →
      p.release h = .error .invalidRelease) ∧
    PoolError.invalidHandle ≠ PoolError.timeoutExpired ∧
    PoolError.invalidRelease ≠ PoolError.timeoutExpired ∧
    PoolError.invalidHandle ≠ PoolError.invalidRelease := by
  refine ⟨?_, ?_, by decide, by decide, by decide⟩
  · intro hge
    rw [FastResourcePool.release, if_pos hge]
  · intro hlt hne
    rw [FastResourcePool.release, if_neg (by omega), if_neg (by simpa using hne)]

/-- Witness for C2: a fresh capacity-1 pool rejects the out-of-range release
of handle 3 and the wrong-state release of the never-acquired slot 0. -/
theorem fastPool_release_invalid_throws_witness :
    (FastResourcePool.init 1).release 3 = .error .invalidHandle ∧
    (FastResourcePool.init 1).release 0 = .error .invalidRelease :=
  ⟨(fastPool_release_invalid_throws (FastResourcePool.init 1) 3).1 (by decide),
   (fastPool_release_invalid_throws (FastResourcePool.init 1) 0).2.1 (by decide) (by decide)⟩

/-- Claim C2 counterexample: the stack allocator `BasePool.release` does NOT
validate the handle.  On a fresh capacity-1 `BasePool`, releasing the
out-of-range (and never Busy) handle 5 throws nothing, mutates the state
(COUNT becomes 1, the bogus handle is pushed), and a subsequent `acquire`
even hands out the out-of-range handle 5. -/
theorem basePool_release_no_validation :
    ((BasePool.init 1).release 5).count = 1 ∧
    ((BasePool.init 1).release 5).cells = [5] ∧
    (((BasePool.init 1).release 5).acquire).1 = some 5 := by
  decide

/-! ### Claim C6 -/

/-- Claim C6 (amended): for every in-range slot index, `lockSlot` atomically
moves the slot Free-to-Locked and returns true exactly when the slot was
Free, returning false and leaving the state unchanged otherwise (in
particular on a Busy slot); `unlockSlot`, however, performs an UNCONDITIONAL
store of STATE_FREE (no Locked-to-Free CAS), so it sets the slot Free
whatever its previous state — including Busy (see the counterexample). -/
theorem lockSlot_cas_unlockSlot_store (p : FastResourcePool) (i : Nat) (hi : i < p.capacity) :
    (p.slots.getD i STATE_BUSY = STATE_FREE →
      p.lockSlot i = .ok (true, { p with slots := p.slots.set i STATE_LOCKED })) ∧
    (p.slots.getD i STATE_BUSY ≠ STATE_FREE → p.lockSlot i = .ok (false, p)) ∧
    p.unlockSlot i = .ok { p with slots := p.slots.set i STATE_FREE, notify := p.notify + 1 } := by
  refine ⟨?_, ?_, ?_⟩
  · intro hfree
    rw [FastResourcePool.lockSlot, if_neg (by omega), if_pos (by simpa using hfree)]
  · intro hne
    rw [FastResourcePool.lockSlot, if_neg (by omega), if_neg (by simpa using hne)]
  · rw [FastResourcePool.unlockSlot, if_neg (by omega)]

/-- Witness for C6: on a fresh capacity-2 pool, `lockSlot 0` succeeds with a
Free-to-Locked transition; on the resulting state a second `lockSlot 0`
returns false and changes nothing; `unlockSlot 1` stores Free. -/
theorem lockSlot_cas_unlockSlot_store_witness :
    (FastResourcePool.init 2).lockSlot 0 =
      .ok (true, { capacity := 2, head := 0, notify := 0, slots := [STATE_LOCKED, STATE_FREE] }) ∧
    ({ capacity := 2, head := 0, notify := 0,
       slots := [STATE_LOCKED, STATE_FREE] } : FastResourcePool).lockSlot 0 =
      .ok (false, { capacity := 2, head := 0, notify := 0, slots := [STATE_LOCKED, STATE_FREE] }) ∧
    (FastResourcePool.init 2).unlockSlot 1 =
      .ok { capacity := 2, head := 0, notify := 1, slots := [STATE_FREE, STATE_FREE] } := by
  refine ⟨?_, ?_, ?_⟩
  · exact (lockSlot_cas_unlockSlot_store (FastResourcePool.init 2) 0 (by decide)).1 (by decide)
  · exact (lockSlot_cas_unlockSlot_store _ 0 (by decide)).2.1 (by decide)
  · exact (lockSlot_cas_unlockSlot_store (FastResourcePool.init 2) 1 (by decide)).2.2

/-- Claim C6 counterexample: `unlockSlot` on a BUSY slot turns it Free.  On a
capacity-1 pool whose only slot has been acquired (state BUSY, still held by
the acquirer), `unlockSlot 0` succeeds and stores STATE_FREE into the slot,
making a caller-held slot acquirable by others. -/
theorem unlockSlot_frees_busy_slot :
    (((FastResourcePool.init 1).acquire).2).slots = [STATE_BUSY] ∧
    (((FastResourcePool.init 1).acquire).2).unlockSlot 0 =
      .ok { capacity := 1, head := 0, notify := 1, slots := [STATE_FREE] } :=
  ⟨rfl, rfl⟩

/-- In range, `getD` is the element and does not depend on the default. -/
theorem getD_eq_of_lt (xs : List Nat) (i d : Nat) (hi : i < xs.length) :
    xs.getD i d = xs[i] := by
  simp [List.getD_eq_getElem?_getD, List.getElem?_eq_getElem hi]

/-- Facts extracted from a successful `BasePool.acquire`. -/
theorem BasePool.acquire_pop_facts {b b1 : BasePool} {h : Nat}
    (hacq : b.acquire = (some h, b1)) :
    0 < b.count ∧ h = b.cells.getD (b.count - 1) 0 ∧ b1 = { b with count := b.count - 1 } := by
  unfold BasePool.acquire at hacq
  split at hacq
  · simp only [Prod.mk.injEq, Option.some.injEq] at hacq
    exact ⟨by assumption, hacq.1.symm, hacq.2.symm⟩
  · simp at hacq

/-- A failed `BasePool.acquire` returns the state unchanged and happens only
at COUNT zero. -/
theorem BasePool.acquire_empty_facts {b b1 : BasePool}
    (hacq : b.acquire = (none, b1)) : b1 = b ∧ b.count = 0 := by
  unfold BasePool.acquire at hacq
  split at hacq
  · simp at hacq
  · simp only [Prod.mk.injEq] at hacq
    exact ⟨hacq.2.symm, by omega⟩

/-- Well-formedness of a linear-scan allocator state: the slot-cell slice has
exactly `cap` cells and every cell holds one of the three state encodings. -/
def FastResourcePool.WF (cap : Nat) (p : FastResourcePool) : Prop :=
  p.capacity = cap ∧ p.slots.length = cap ∧
    ∀ v ∈ p.slots, v = STATE_FREE ∨ v = STATE_BUSY ∨ v = STATE_LOCKED

/-- Writing one of the three state encodings into any cell preserves the
all-cells-valid property. -/
theorem mem_set_three_states {xs : List Nat} (i w : Nat)
    (hx : ∀ v ∈ xs, v = STATE_FREE ∨ v = STATE_BUSY ∨ v = STATE_LOCKED)
    (hw : w = STATE_FREE ∨ w = STATE_BUSY ∨ w = STATE_LOCKED) :
    ∀ v ∈ xs.set i w, v = STATE_FREE ∨ v = STATE_BUSY ∨ v = STATE_LOCKED := by
  intro v hv
  rcases List.mem_or_eq_of_mem_set hv with hv' | rfl
  · exact hx v hv'
  · exact hw

/-- Every state reachable from a fresh `FastResourcePool` by its four
operations is well-formed. -/
theorem fastReachable_wf {cap : Nat} {p : FastResourcePool}
    (h : FastReachable cap p) : FastResourcePool.WF cap p := by
  induction h with
  | init =>
    refine ⟨rfl, by simp [FastResourcePool.init], ?_⟩
    intro v hv
    exact Or.inl (List.eq_of_mem_replicate hv)
  | acquire hr ih =>
    obtain ⟨hcap, hlen, hmem⟩ := ih
    rename_i q
    rcases hq : q.acquire with ⟨o, p1⟩
    show FastResourcePool.WF cap p1
    cases o with
    | none => rw [FastResourcePool.acquire_none_id hq]; exact ⟨hcap, hlen, hmem⟩
    | some hdl =>
      obtain ⟨hlt, _, hslots, hcap1, _⟩ := FastResourcePool.acquire_some_facts hq
      refine ⟨hcap1.trans hcap, ?_, ?_⟩
      · rw [hslots, List.length_set, hlen]
      · rw [hslots]
        exact mem_set_three_states _ _ hmem (Or.inr (Or.inl rfl))
  | release hr hrel ih =>
    obtain ⟨hcap, hlen, hmem⟩ := ih
    rw [FastResourcePool.release] at hrel
    split at hrel
    · simp at hrel
    · split at hrel
      · simp only [Except.ok.injEq] at hrel
        subst hrel
        exact ⟨hcap, by simpa using hlen, mem_set_three_states _ _ hmem (Or.inl rfl)⟩
      · simp at hrel
  | lockSlot hr hlock ih =>
    obtain ⟨hcap, hlen, hmem⟩ := ih
    rw [FastResourcePool.lockSlot] at hlock
    split at hlock
    · simp at hlock
    · split at hlock
      · simp only [Except.ok.injEq, Prod.mk.injEq] at hlock
        rw [← hlock.2]
        exact ⟨hcap, by simpa using hlen, mem_set_three_states _ _ hmem (Or.inr (Or.inr rfl))⟩
      · simp only [Except.ok.injEq, Prod.mk.injEq] at hlock
        rw [← hlock.2]
        exact ⟨hcap, hlen, hmem⟩
  | unlockSlot hr hunlock ih =>
    obtain ⟨hcap, hlen, hmem⟩ := ih
    rw [FastResourcePool.unlockSlot] at hunlock
    split at hunlock
    · simp at hunlock
    · simp only [Except.ok.injEq] at hunlock
      subst hunlock
      exact ⟨hcap, by simpa using hlen, mem_set_three_states _ _ hmem (Or.inl rfl)⟩

/-! ### Claim C7 -/

/-- Claim C7 (confirmed): in every state of the linear-scan allocator
reachable by acquire/release/lockSlot/unlockSlot from construction, every
slot cell holds exactly one of STATE_FREE, STATE_BUSY, STATE_LOCKED, and the
three state counts sum to the capacity. -/
theorem fastPool_conservation (cap : Nat) (p : FastResourcePool)
    (h : FastReachable cap p) :
    (∀ v ∈ p.slots, v = STATE_FREE ∨ v = STATE_BUSY ∨ v = STATE_LOCKED) ∧
    p.slots.count STATE_FREE + p.slots.count STATE_BUSY + p.slots.count STATE_LOCKED = cap := by
  obtain ⟨hcap, hlen, hmem⟩ := fastReachable_wf h
  exact ⟨hmem, by rw [count_three_states _ hmem, hlen]⟩

/-- Witness for C7 at a concrete reachable state: capacity 2 after one
acquire (one Busy, one Free slot). -/
theorem fastPool_conservation_witness :
    (∀ v ∈ (((FastResourcePool.init 2).acquire).2).slots,
        v = STATE_FREE ∨ v = STATE_BUSY ∨ v = STATE_LOCKED) ∧
    (((FastResourcePool.init 2).acquire).2).slots.count STATE_FREE +
      (((FastResourcePool.init 2).acquire).2).slots.count STATE_BUSY +
      (((FastResourcePool.init 2).acquire).2).slots.count STATE_LOCKED = 2 :=
  fastPool_conservation 2 _ (FastReachable.acquire FastReachable.init)

/-! ### Claim C8 -/

/-- Claim C8 (confirmed): a `use`-style scoped call that succeeds in
acquiring a slot releases it on every exit path.  For both exit outcomes of
the supplied function (normal return `.ok` or thrown error `.error`, here the
single value `fn h`): `FastResourcePool.use` finishes with the acquired slot
back in STATE_FREE, the slot cells exactly as before the call, and the
available count restored; `EnginePool.use` finishes with the available count
restored and the acquired index back on top of the free stack. -/
theorem use_releases_on_every_exit {E R : Type} (fn : Nat → Except E R)
    (p : FastResourcePool) (h : Nat) (p1 : FastResourcePool)
    (hwf : p.slots.length = p.capacity)
    (hacq : p.acquire = (some h, p1))
    (b : BasePool) (idx : Nat) (b1 : BasePool)
    (hbcount : b.count ≤ b.capacity)
    (hblen : b.cells.length = b.capacity)
    (hbacq : b.acquire = (some idx, b1)) :
    (∃ p2 : FastResourcePool, p.use fn = some (fn h, p2) ∧
       p2.slots = p.slots ∧ p2.slots.getD h STATE_BUSY = STATE_FREE ∧
       p2.availableCount = p.availableCount) ∧
    (∃ b2 : BasePool, EnginePool.use b fn = some (fn idx, b2) ∧
       b2.availableCount = b.availableCount ∧
       0 < b2.count ∧ b2.cells.getD (b2.count - 1) 0 = idx) := by
  constructor
  · obtain ⟨hlt, hfree, hslots, hcap1, hnot1⟩ := FastResourcePool.acquire_some_facts hacq
    have hlt1 : h < p1.slots.length := by rw [hslots, List.length_set]; exact hlt
    have hbusy : p1.slots.getD h STATE_FREE = STATE_BUSY := by
      rw [hslots, List.getD_eq_getElem?_getD, List.getElem?_set_self hlt]
      rfl
    have hcas : (p1.slots.getD h STATE_FREE == STATE_BUSY) = true := by
      simpa using hbusy
    have hrel : p1.release h =
        .ok { p1 with slots := p1.slots.set h STATE_FREE, notify := p1.notify + 1 } := by
      rw [FastResourcePool.release, if_neg (by omega), if_pos hcas]
    have hrestore : p1.slots.set h STATE_FREE = p.slots := by
      rw [hslots, List.set_set]
      exact set_getD_self _ _ _ hlt (by rw [getD_eq_of_lt _ _ _ hlt] at hfree ⊢; exact hfree)
    refine ⟨{ p1 with slots := p1.slots.set h STATE_FREE, notify := p1.notify + 1 },
      ?_, ?_, ?_, ?_⟩
    · simp only [FastResourcePool.use, hacq, hrel]
    · exact hrestore
    · simp only [hrestore]
      rw [getD_eq_of_lt _ _ _ hlt]
      rw [getD_eq_of_lt _ _ _ hlt] at hfree
      exact hfree
    · simp only [FastResourcePool.availableCount, hrestore]
  · obtain ⟨hcnt, hidx, hb1⟩ := BasePool.acquire_pop_facts hbacq
    have hlt : b.count - 1 < b.capacity := by omega
    have hrel : b1.release idx =
        { b1 with cells := b1.cells.set (b.count - 1) idx, count := b.count,
                  notify := b1.notify + 1 } := by
      rw [BasePool.release, if_pos (by rw [hb1]; exact hlt)]
      rw [hb1]
      simp only
      congr 1
      omega
    have key : EnginePool.use b fn = some (fn idx,
        { b1 with cells := b1.cells.set (b.count - 1) idx, count := b.count,
                  notify := b1.notify + 1 }) := by
      simp only [EnginePool.use, hbacq, hrel]
    have hlen1 : b.count - 1 < b1.cells.length := by
      rw [hb1]
      simp only
      omega
    refine ⟨_, key, ?_, ?_, ?_⟩
    · simp only [BasePool.availableCount]
    · simpa using hcnt
    · simp only
      rw [List.getD_eq_getElem?_getD, List.getElem?_set_self hlen1]
      rfl

/-- Witness for C8: a capacity-1 `FastResourcePool` and the seeded capacity-1
`EnginePool`, with a supplied function that THROWS (the hard exit path): both
pools end with their single slot available again. -/
theorem use_releases_on_every_exit_witness :
    (∃ p2 : FastResourcePool,
       (FastResourcePool.init 1).use (fun _ => (Except.error 7 : Except Nat Nat)) =
         some (Except.error 7, p2) ∧
       p2.slots = (FastResourcePool.init 1).slots ∧
       p2.slots.getD 0 STATE_BUSY = STATE_FREE ∧
       p2.availableCount = (FastResourcePool.init 1).availableCount) ∧
    (∃ b2 : BasePool,
       EnginePool.use (EnginePool.construct 1) (fun _ => (Except.error 7 : Except Nat Nat)) =
         some (Except.error 7, b2) ∧
       b2.availableCount = (EnginePool.construct 1).availableCount ∧
       0 < b2.count ∧ b2.cells.getD (b2.count - 1) 0 = 0) :=
  use_releases_on_every_exit (fun _ => (Except.error 7 : Except Nat Nat))
    (FastResourcePool.init 1) 0 ((FastResourcePool.init 1).acquire).2
    (by decide) (by decide)
    (EnginePool.construct 1) 0 ((EnginePool.construct 1).acquire).2
    (by decide) (by decide) (by decide)

/-! ### Claim C4 -/

/-- Claim C4 (amended): the final-retry-on-expiry behavior holds for the
stack allocator `BasePool.acquireAsync`: each loop iteration retries the
non-blocking acquire BEFORE the deadline check, so a slot released in the
same instant as the expiry is returned (first conjunct), and the Timeout
error is thrown only when that final attempt finds no free slot after the
deadline has passed (second conjunct).  The linear-scan
`FastResourcePool.acquireAsync` does NOT have this property: on a timed-out
wait it throws immediately with no final attempt (see the counterexample). -/
theorem basePool_timeout_final_retry (b : BasePool) (expired : Bool)
    (hav : 0 < b.availableCount) :
    (∃ b1 h, b.acquireAsyncStep expired = .success b1 h) ∧
    (∀ (b2 : BasePool) (e2 : Bool), b2.acquireAsyncStep e2 = .timeoutThrown →
      (b2.acquire).1 = none ∧ e2 = true) := by
  constructor
  · rcases hq : b.acquire with ⟨o, b1⟩
    cases o with
    | none =>
      have := (BasePool.acquire_empty_facts hq).2
      simp only [BasePool.availableCount] at hav
      omega
    | some h =>
      exact ⟨b1, h, by rw [BasePool.acquireAsyncStep, hq]⟩
  · intro b2 e2 hstep
    rw [BasePool.acquireAsyncStep] at hstep
    rcases hq : b2.acquire with ⟨o, b21⟩
    rw [hq] at hstep
    cases o with
    | none =>
      refine ⟨rfl, ?_⟩
      cases e2 with
      | false => simp at hstep
      | true => rfl
    | some h => simp at hstep

/-- Witness for C4: a seeded capacity-1 `BasePool` whose slot was just
released, at an already-expired deadline: the loop's final acquire attempt
still succeeds instead of throwing Timeout. -/
theorem basePool_timeout_final_retry_witness :
    (∃ b1 h, (EnginePool.construct 1).acquireAsyncStep true = .success b1 h) ∧
    (∀ (b2 : BasePool) (e2 : Bool), b2.acquireAsyncStep e2 = .timeoutThrown →
      (b2.acquire).1 = none ∧ e2 = true) :=
  basePool_timeout_final_retry (EnginePool.construct 1) true (by decide)

/-- Claim C4 counterexample: in `FastResourcePool.acquireAsync`, when the
wait reports `timed-out`, the Timeout error is thrown WITHOUT a final
non-blocking attempt: on a capacity-1 pool whose slot is free at the wake
instant (released in the same instant as the expiry) the iteration throws
even though an acquire would succeed, discarding the available slot. -/
theorem fastPool_timeout_discards_slot :
    (FastResourcePool.init 1).acquireAsyncStep false .timedOut =
      AsyncIterResult.timeoutThrown ∧
    ((FastResourcePool.init 1).acquire).1 = some 0 := by
  exact ⟨rfl, rfl⟩

/-! ### Claim C1 -/

/-- Claim C1 (amended): when validation fails and the replacement resource
creation itself fails, `StaticObjectPool.acquireAsync` releases the
caller-held slot back to the allocator (its availableCount grows by one, so
the slot is available to other callers) and propagates the creation error.
The DYNAMIC `ObjectPool.replaceResourceInSlot`, however, propagates the
error but does NOT release the slot (see the counterexample), so only the
static variant satisfies the full claim. -/
theorem static_replacement_failure_releases_slot {T E : Type} (pool : BasePool)
    (resources : List (Option T)) (idx : Nat) (e : E)
    (hcnt : pool.count < pool.capacity) :
    StaticObjectPool.replaceInvalid pool resources idx (.error e) =
      ((pool.release idx, resources), .error e) ∧
    (pool.release idx).availableCount = pool.availableCount + 1 := by
  refine ⟨rfl, ?_⟩
  simp only [BasePool.release, if_pos hcnt, BasePool.availableCount]

/-- Witness for C1: a static pool over a capacity-1 allocator whose slot 0 is
held by the caller: on factory failure the slot is released (availableCount
goes 0 to 1) and the error value 42 is propagated unchanged. -/
theorem static_replacement_failure_releases_slot_witness :
    StaticObjectPool.replaceInvalid
        ({ capacity := 1, count := 0, notify := 1, cells := [0] } : BasePool)
        ([some ()] : List (Option Unit)) 0 (.error 42) =
      ((({ capacity := 1, count := 0, notify := 1, cells := [0] } : BasePool).release 0,
        [some ()]), .error (42 : Nat)) ∧
    (({ capacity := 1, count := 0, notify := 1, cells := [0] } : BasePool).release 0).availableCount =
      ({ capacity := 1, count := 0, notify := 1, cells := [0] } : BasePool).availableCount + 1 :=
  static_replacement_failure_releases_slot
    ({ capacity := 1, count := 0, notify := 1, cells := [0] } : BasePool)
    [some ()] 0 (42 : Nat) (by decide)

/-- Claim C1 counterexample: in the dynamic `ObjectPool`, a failed
replacement creation propagates the error but leaves the state — including
the inner allocator — completely unchanged: the caller-held slot is NOT
released (availableCount stays 0 on a min=max=1 pool whose only slot the
caller holds), contradicting the claim that the slot is released back to the
allocator for every pool variant. -/
theorem dynamic_replacement_failure_keeps_slot :
    (phantomSlotState.replaceResourceInSlot 0 (Except.error 42)).2 =
      (Except.error (42 : Nat) : Except Nat Unit) ∧
    (phantomSlotState.replaceResourceInSlot 0 (Except.error (42 : Nat))).1 = phantomSlotState ∧
    phantomSlotState.pool.availableCount = 0 := by
  exact ⟨rfl, rfl, rfl⟩

/-- Folding cons over a list builds the reversed map of the accumulator. -/
theorem foldl_cons_eq_reverse_map {α β : Type} (f : α → β) (l : List α) (init : List β) :
    l.foldl (fun m p => f p :: m) init = (l.map f).reverse ++ init := by
  induction l generalizing init with
  | nil => simp
  | cons x t ih => simp [ih, List.append_assoc]

/-- Closed form of the `resourceToIdx` map built by the `GenericObjectPool`
constructor. -/
theorem genericPool_build_eq {T : Type} (rs : List T) :
    (GenericObjectPool.construct rs).resourceToIdx =
      (rs.enum.map (fun p => (p.2, p.1))).reverse := by
  simp [GenericObjectPool.construct, foldl_cons_eq_reverse_map]

/-- Every entry of the built map points at an actual occurrence of its key in
the resources array. -/
theorem genericPool_build_sound {T : Type} (rs : List T) (q : T × Nat)
    (hq : q ∈ (GenericObjectPool.construct rs).resourceToIdx) :
    rs[q.2]? = some q.1 := by
  rw [genericPool_build_eq, List.mem_reverse, List.mem_map] at hq
  obtain ⟨p, hp, rfl⟩ := hq
  rcases p with ⟨i, x⟩
  exact (List.mk_mem_enum_iff_getElem?).mp hp

/-! ### Claim C5 -/

/-- Claim C5 (amended): `GenericObjectPool.release(resource)` resolves the
resource to its slot index through the `resourceToIdx` reverse index: a
resource not recognized as belonging to the pool is rejected with the
distinct `foreignResource` error before any index reaches the underlying
slot pool (so no slot state is mutated), and an owned resource resolves to
an index at which the resources array really holds it.  The dynamic
`ObjectPool.release`, by contrast, performs no ownership check at all (see
the counterexample). -/
theorem generic_release_foreign_rejected {T : Type} [DecidableEq T] (rs : List T) (r : T) :
    (r ∉ rs → (GenericObjectPool.construct rs).release r = .error .foreignResource) ∧
    (r ∈ rs → ∃ i, (GenericObjectPool.construct rs).release r = .ok i ∧ rs[i]? = some r) := by
  constructor
  · intro hnot
    rw [GenericObjectPool.release]
    have hnone : (GenericObjectPool.construct rs).resourceToIdx.find? (fun q => q.1 == r) = none := by
      apply List.find?_eq_none.mpr
      intro q hq
      have hsound := genericPool_build_sound rs q hq
      simp only [beq_iff_eq]
      intro hqr
      exact hnot (by
        subst hqr
        exact List.getElem?_mem hsound)
    rw [hnone]
  · intro hmem
    obtain ⟨i0, hi0, hget⟩ := List.mem_iff_getElem.mp hmem
    have hin : ((r, i0) : T × Nat) ∈ (GenericObjectPool.construct rs).resourceToIdx := by
      rw [genericPool_build_eq, List.mem_reverse, List.mem_map]
      refine ⟨(i0, r), ?_, rfl⟩
      exact (List.mk_mem_enum_iff_getElem?).mpr (by rw [List.getElem?_eq_getElem hi0, hget])
    have hissome : ((GenericObjectPool.construct rs).resourceToIdx.find?
        (fun q => q.1 == r)).isSome := by
      rw [List.find?_isSome]
      exact ⟨(r, i0), hin, by simp⟩
    obtain ⟨q, hfind⟩ := Option.isSome_iff_exists.mp hissome
    have hpred0 := List.find?_some hfind
    have hpred : (q.1 == r) = true := by simpa using hpred0
    have hqmem := List.mem_of_find?_eq_some hfind
    have hsound := genericPool_build_sound rs q hqmem
    refine ⟨q.2, ?_, ?_⟩
    · rw [GenericObjectPool.release, hfind]
    · rw [hsound, eq_of_beq hpred]

/-- Witness for C5: the pool built over resources `[3, 7]` rejects the
foreign value 9 with the distinct error and resolves the owned value 7 to a
slot index holding it. -/
theorem generic_release_foreign_rejected_witness :
    (GenericObjectPool.construct [3, 7]).release 9 = .error .foreignResource ∧
    (∃ i, (GenericObjectPool.construct [3, 7]).release 7 = .ok i ∧ [3, 7][i]? = some 7) :=
  ⟨(generic_release_foreign_rejected [3, 7] 9).1 (by decide),
   (generic_release_foreign_rejected [3, 7] 7).2 (by decide)⟩

/-- Claim C5 counterexample: the dynamic `ObjectPool.release` trusts the
SLOT_SYMBOL tag blindly.  On a min=max=2 pool with both slots held by their
owners, releasing a FOREIGN resource that carries tag 0 (for example a
resource created and tagged by a different pool) is not rejected: no error
is raised, the allocator state is mutated (availableCount goes 0 to 1), and
a subsequent acquire hands out slot 0 while its true owner still holds it. -/
theorem objectPool_release_no_ownership_check :
    (bothBusyState.release 0 5).pool.availableCount =
      bothBusyState.pool.availableCount + 1 ∧
    ((bothBusyState.release 0 5).pool.acquire).1 = some 0 := by
  exact ⟨rfl, rfl⟩

/-- Full characterization of one `checkScaleDown` tick: either it changes
nothing, or (the idle window has elapsed, the active count exceeds `min`,
the free stack is nonempty and) it removes exactly the one resource whose
slot index sits on top of the allocator's free stack. -/
theorem checkScaleDown_cases (st : ObjectPool) (now : Nat) :
    st.checkScaleDown now = st ∨
    (¬ now - st.lastActivity < st.idleTimeout ∧
      st.min < st.max - st.availableIndexes.length ∧
      0 < st.pool.count ∧
      st.checkScaleDown now = { st with
        pool := { st.pool with count := st.pool.count - 1 },
        resources := st.resources.set (st.pool.cells.getD (st.pool.count - 1) 0) none,
        availableIndexes :=
          st.pool.cells.getD (st.pool.count - 1) 0 :: st.availableIndexes }) := by
  rw [ObjectPool.checkScaleDown]
  by_cases h1 : now - st.lastActivity < st.idleTimeout
  · left
    rw [if_pos h1]
  · rw [if_neg h1]
    simp only
    by_cases h2 : st.max - st.availableIndexes.length ≤ st.min
    · left
      rw [if_pos h2]
    · rw [if_neg h2]
      rcases hq : st.pool.acquire with ⟨o, p1⟩
      cases o with
      | none =>
        left
        obtain ⟨hp1, -⟩ := BasePool.acquire_empty_facts hq
        subst hp1
        rfl
      | some j =>
        obtain ⟨hc, hj, hp1⟩ := BasePool.acquire_pop_facts hq
        subst hp1
        subst hj
        right
        exact ⟨h1, by omega, hc, rfl⟩

/-! ### Claim C9 -/

/-- Claim C9 (amended): a `checkScaleDown` tick removes nothing unless
`now - lastActivity ≥ idleTimeout` (the source fires at ≥, not the claimed
strict >) and `activeSize > min`; when it does remove, it removes AT MOST
ONE resource per tick — not `min(availableCount, activeSize - min)` — and
the removed slot is the top of the allocator's free stack, an available
slot, never one held by a caller. -/
theorem checkScaleDown_removes_at_most_one (st : ObjectPool) (now : Nat) :
    ((now - st.lastActivity < st.idleTimeout ∨
        st.max - st.availableIndexes.length ≤ st.min) → st.checkScaleDown now = st) ∧
    (st.checkScaleDown now).availableIndexes.length ≤ st.availableIndexes.length + 1 ∧
    (∀ idx : Nat, (st.checkScaleDown now).availableIndexes = idx :: st.availableIndexes →
      0 < st.pool.count ∧ idx = st.pool.cells.getD (st.pool.count - 1) 0 ∧
      (st.checkScaleDown now).pool.count = st.pool.count - 1) := by
  rcases checkScaleDown_cases st now with hsame | ⟨h1, h2, hc, heq⟩
  · refine ⟨fun _ => hsame, ?_, ?_⟩
    · rw [hsame]
      omega
    · intro idx hcons
      rw [hsame] at hcons
      exact absurd hcons.symm (List.cons_ne_self idx st.availableIndexes)
  · refine ⟨?_, ?_, ?_⟩
    · intro h
      rcases h with h | h
      · exact absurd h h1
      · omega
    · rw [heq]
      simp
    · intro idx hcons
      rw [heq] at hcons
      simp only at hcons
      obtain ⟨rfl, -⟩ := List.cons.inj hcons.symm
      exact ⟨hc, rfl, by rw [heq]⟩

/-- Witness for C9: the idle min=1/max=5 pool with three available resources
is untouched by a tick inside the idle window (now = 5), and any tick grows
the reserve list by at most one entry. -/
theorem checkScaleDown_removes_at_most_one_witness :
    idlePoolState.checkScaleDown 5 = idlePoolState ∧
    (idlePoolState.checkScaleDown 10).availableIndexes.length ≤
      idlePoolState.availableIndexes.length + 1 :=
  ⟨(checkScaleDown_removes_at_most_one idlePoolState 5).1 (Or.inl (by decide)),
   (checkScaleDown_removes_at_most_one idlePoolState 10).2.1⟩

/-- Claim C9 counterexample: on the idle min=1/max=5 pool with
availableCount = 3 and activeSize = 5, at `now = 10` the elapsed idle time
EQUALS idleTimeout (10), so by the claim (strict >) nothing may be removed,
and were the check to fire the claim prescribes
min(availableCount, activeSize - min) = min(3, 4) = 3 removals; the code
instead fires at equality and removes exactly ONE resource. -/
theorem checkScaleDown_counterexample :
    10 - idlePoolState.lastActivity = idlePoolState.idleTimeout ∧
    (idlePoolState.checkScaleDown 10).availableIndexes.length -
      idlePoolState.availableIndexes.length = 1 ∧
    Nat.min idlePoolState.pool.count
      (idlePoolState.max - idlePoolState.availableIndexes.length - idlePoolState.min) = 3 ∧
    (1 : Nat) ≠ 3 := by
  decide

/-- Closed form of the `EnginePool` constructor seeding done on the first `k`
indices: COUNT = k and the stack cells hold `0, 1, ..., k-1` followed by the
untouched zero-initialized remainder. -/
theorem enginePool_seed (n k : Nat) (hk : k ≤ n) :
    (List.range k).foldl (fun b i => b.release i) (BasePool.init n) =
      { capacity := n, count := k, notify := k,
        cells := List.range k ++ List.replicate (n - k) 0 } := by
  induction k with
  | zero => simp [BasePool.init]
  | succ j ih =>
    rw [List.range_succ, List.foldl_append, ih (by omega)]
    simp only [List.foldl_cons, List.foldl_nil]
    rw [BasePool.release]
    rw [if_pos (by simpa using hk)]
    simp only [BasePool.mk.injEq, true_and]
    rw [List.set_append_right _ _ (by simp)]
    have hrep : List.replicate (n - j) 0 = 0 :: List.replicate (n - (j + 1)) 0 := by
      have : n - j = (n - (j + 1)) + 1 := by omega
      rw [this, List.replicate_succ]
    rw [hrep]
    simp [List.append_assoc]

/-- Popping `k` times from a stack pool whose cell `j` holds `j` yields the
descending run `c-1, c-2, ..., c-k` and leaves COUNT at `c - k` with the
cells untouched. -/
theorem acquireMany_desc (L : List Nat) (cap nt : Nat)
    (hL : ∀ j, j < L.length → L.getD j 0 = j) :
    ∀ (k c : Nat), k ≤ c → c ≤ L.length →
    BasePool.acquireMany { capacity := cap, count := c, notify := nt, cells := L } k =
      ((List.range' (c - k) k).reverse.map some,
       { capacity := cap, count := c - k, notify := nt, cells := L }) := by
  intro k
  induction k with
  | zero =>
    intro c _ _
    simp [BasePool.acquireMany]
  | succ j ih =>
    intro c hkc hcn
    have hc : 0 < c := by omega
    have hstep : BasePool.acquire { capacity := cap, count := c, notify := nt, cells := L } =
        (some (c - 1), { capacity := cap, count := c - 1, notify := nt, cells := L }) := by
      rw [BasePool.acquire]
      rw [if_pos (by simpa using hc)]
      simp only [Prod.mk.injEq, Option.some.injEq, and_true]
      exact hL (c - 1) (by omega)
    rw [BasePool.acquireMany]
    simp only [hstep]
    rw [ih (c - 1) (by omega) (by omega)]
    simp only [Prod.mk.injEq]
    have harith : c - 1 - j = c - (j + 1) := by omega
    refine ⟨?_, by rw [harith]⟩
    rw [harith]
    have hconcat : List.range' (c - (j + 1)) (j + 1) =
        List.range' (c - (j + 1)) j ++ [c - 1] := by
      rw [List.range'_concat]
      congr 1
      simp only [Nat.one_mul, List.cons.injEq, and_true]
      omega
    rw [hconcat]
    simp

/-! ### Claim C10 -/

/-- Claim C10 (confirmed): for every n ≥ 1, `EnginePool(n)` seeds its fresh
stack allocator (which starts with zero available slots) by releasing every
index `0..n-1`, so `availableCount()` is n, n consecutive `acquire()` calls
return the pairwise-distinct indices `n-1, ..., 1, 0` — each in `[0, n)` —
and the (n+1)-th `acquire()` returns -1 (`none`). -/
theorem enginePool_seeds_all_slots (n : Nat) (_hn : 1 ≤ n) :
    (EnginePool.construct n).availableCount = n ∧
    ((EnginePool.construct n).acquireMany n).1 = (List.range n).reverse.map some ∧
    (((EnginePool.construct n).acquireMany n).2).acquire.1 = none ∧
    ((List.range n).reverse).Nodup ∧ (∀ i ∈ (List.range n).reverse, i < n) := by
  have hseed := enginePool_seed n n (Nat.le_refl n)
  have hcells : List.range n ++ List.replicate (n - n) 0 = List.range n := by simp
  rw [hcells] at hseed
  have hL : ∀ j, j < (List.range n).length → (List.range n).getD j 0 = j := by
    intro j hj
    rw [getD_eq_of_lt _ _ _ hj, List.getElem_range]
  have hmany := acquireMany_desc (List.range n) n n hL n n (Nat.le_refl n) (by simp)
  refine ⟨?_, ?_, ?_, ?_, ?_⟩
  · rw [EnginePool.construct, hseed]
    rfl
  · rw [EnginePool.construct, hseed, hmany]
    simp [List.range_eq_range']
  · rw [EnginePool.construct, hseed, hmany]
    simp only [BasePool.acquire]
    rw [if_neg (by omega)]
  · exact List.nodup_reverse.mpr (List.nodup_range n)
  · intro i hi
    rw [List.mem_reverse, List.mem_range] at hi
    exact hi

/-- Witness for C10 at n = 3: three available slots, three acquires returning
2, 1, 0, then exhaustion. -/
theorem enginePool_seeds_all_slots_witness :
    (EnginePool.construct 3).availableCount = 3 ∧
    ((EnginePool.construct 3).acquireMany 3).1 = (List.range 3).reverse.map some ∧
    (((EnginePool.construct 3).acquireMany 3).2).acquire.1 = none ∧
    ((List.range 3).reverse).Nodup ∧ (∀ i ∈ (List.range 3).reverse, i < 3) :=
  enginePool_seeds_all_slots 3 (by decide)

/-- Each dynamic-pool operation preserves the configured bounds and keeps the
reserve list (`availableIndexes`) no longer than `max - min`. -/
theorem objectPoolStep_preserves {a b : ObjectPool} (hstep : ObjectPoolStep a b)
    (mn mx : Nat) (h1 : a.min = mn) (h2 : a.max = mx)
    (h3 : a.availableIndexes.length ≤ mx - mn) :
    b.min = mn ∧ b.max = mx ∧ b.availableIndexes.length ≤ mx - mn := by
  cases hstep with
  | acquire now =>
    rcases hq : a.pool.acquire with ⟨r, p1⟩
    simp only [ObjectPool.acquire, hq]
    exact ⟨h1, h2, h3⟩
  | release tagIdx now =>
    exact ⟨h1, h2, h3⟩
  | scaleUp factoryOk =>
    cases hai : a.availableIndexes with
    | nil =>
      rw [hai] at h3
      simp only [ObjectPool.triggerScaleUp, hai]
      exact ⟨h1, h2, h3⟩
    | cons x rest =>
      rw [hai] at h3
      cases factoryOk with
      | false =>
        simp only [ObjectPool.triggerScaleUp, hai, Bool.false_eq_true, if_false]
        exact ⟨h1, h2, h3⟩
      | true =>
        simp only [ObjectPool.triggerScaleUp, hai, if_true]
        refine ⟨h1, h2, ?_⟩
        simp only [List.length_cons] at h3
        omega
  | scaleDown now =>
    rcases checkScaleDown_cases a now with hsame | ⟨-, hgt, -, heq⟩
    · rw [hsame]
      exact ⟨h1, h2, h3⟩
    · rw [heq]
      refine ⟨h1, h2, ?_⟩
      simp only [List.length_cons]
      omega

/-! ### Claim C3 -/

/-- Claim C3 (amended): for a Dynamic pool whose `min` resources are
materialized at construction — a synchronous factory, or at least `min`
initial resources — every state reachable by acquire/release/scale-up/
scale-down keeps `min ≤ activeResourceCount ≤ max`; in particular a sync
min=2/max=5 pool always has its current size in [2, 5].  A pool built with
an ASYNC factory and fewer than `min` initial resources starts BELOW `min`
(see the counterexample), because `createPoolInternal` fills up to `min`
only for synchronous factories. -/
theorem dynamic_pool_bounds (mn mx numInitial idleT now0 : Nat) (isAsync : Bool)
    (st : ObjectPool) (hmn : mn ≤ mx)
    (hstart : isAsync = false ∨ mn ≤ numInitial)
    (hreach : ObjectPoolReachable (createPoolInternal mn mx numInitial isAsync idleT now0) st) :
    st.min ≤ st.activeResourceCount ∧ st.activeResourceCount ≤ st.max := by
  suffices hinv : st.min = mn ∧ st.max = mx ∧ st.availableIndexes.length ≤ mx - mn by
    obtain ⟨h1, h2, h3⟩ := hinv
    simp only [ObjectPool.activeResourceCount, h1, h2]
    omega
  induction hreach with
  | refl =>
    refine ⟨rfl, rfl, ?_⟩
    simp only [createPoolInternal, List.length_reverse, List.length_range']
    have hmin1 := Nat.min_le_left numInitial mx
    have hmin2 := Nat.min_le_right numInitial mx
    split_ifs with hb
    · omega
    · rcases hstart with hs | hs
      · rw [hs] at hb
        simp only [true_and, Nat.not_lt] at hb
        omega
      · have hmin3 : mn ≤ Nat.min numInitial mx := Nat.le_min.mpr ⟨hs, hmn⟩
        omega
  | step hr hstep ih =>
    obtain ⟨h1, h2, h3⟩ := ih
    exact objectPoolStep_preserves hstep mn mx h1 h2 h3

/-- Witness for C3: the freshly constructed sync min=2/max=5 pool has its
active resource count within [2, 5]. -/
theorem dynamic_pool_bounds_witness :
    (createPoolInternal 2 5 0 false 30000 0).min ≤
      (createPoolInternal 2 5 0 false 30000 0).activeResourceCount ∧
    (createPoolInternal 2 5 0 false 30000 0).activeResourceCount ≤
      (createPoolInternal 2 5 0 false 30000 0).max :=
  dynamic_pool_bounds 2 5 0 30000 0 false _ (by decide) (Or.inl rfl)
    ObjectPoolReachable.refl

/-- Claim C3 counterexample: a Dynamic pool constructed with min=2, max=5,
an ASYNC factory and no initial resources is immediately quiescent with
activeResourceCount = 0 < 2 = min: the claimed lower bound fails right after
construction, because the async-factory path of `createPoolInternal` creates
nothing eagerly. -/
theorem dynamic_pool_below_min_after_async_construction :
    (createPoolInternal 2 5 0 true 30000 0).min = 2 ∧
    (createPoolInternal 2 5 0 true 30000 0).activeResourceCount = 0 ∧
    ¬ ((createPoolInternal 2 5 0 true 30000 0).min ≤
        (createPoolInternal 2 5 0 true 30000 0).activeResourceCount) := by
  decide
